import Mathlib

/-!
Shallow embedding of the gotex package (src/main.go): a thin driver around an
external LaTeX process.  The filesystem and the external process are
abstracted as oracles (`LogRead`, `PassOutcome`, `RenderEnv`); every piece of
control flow and string manipulation owned by the package itself is translated
directly from the source.
-/

namespace Gotex

/-- Lines of a log file as delivered by a bufio.Scanner, together with whether
the scanner hit a read error after yielding those lines (bufio.Scanner
semantics: lines before the error are delivered, then Scan returns false and
Err reports the error). -/
structure LogRead where
  lines : List String
  readErr : Bool
deriving DecidableEq

/-- Go strings.Join: concatenates the list elements with the separator placed
between consecutive elements. -/
def stringsJoin : List String → String → String
  | [], _ => ""
  | [s], _ => s
  | s :: t :: rest, sep => s ++ sep ++ stringsJoin (t :: rest) sep

/-- Characters treated as white space by Go's unicode.IsSpace in the Latin-1
range (tab, newline, vertical tab, form feed, carriage return, space, NEL,
NBSP); the log lines at issue are ASCII, so the remaining Unicode space runes
are irrelevant here. -/
def isGoSpace (c : Char) : Bool :=
  c = '\t' || c = '\n' || c = '\x0b' || c = '\x0c' || c = '\r' || c = ' ' ||
  c = '\u0085' || c = '\u00a0'

/-- Go strings.TrimSpace: drop leading and trailing white space. -/
def trimSpace (s : String) : String :=
  String.mk (((s.data.dropWhile isGoSpace).reverse.dropWhile isGoSpace).reverse)

/-- Whether pat occurs as a contiguous run inside the character list. -/
def charsContain (pat : List Char) : List Char → Bool
  | [] => pat.isEmpty
  | c :: rest => pat.isPrefixOf (c :: rest) || charsContain pat rest

/-- Go regexp MatchString for the constant pattern ".*Rerun to get.*" used by
needsRerun: true exactly when the line contains "Rerun to get". -/
def lineHasRerunMarker (line : String) : Bool :=
  charsContain "Rerun to get".data line.data

/-- Go regexp MatchString for the constant pattern "(^!.*|^<\\*>)" used by
getErrorsFromLog: true exactly when the line starts with "!" or with "<*>". -/
def isErrLine (line : String) : Bool :=
  "!".data.isPrefixOf line.data || "<*>".data.isPrefixOf line.data

/-- Message of errors.Wrap(err, ctx): "ctx: err". -/
def wrapErr (ctx msg : String) : String := ctx ++ ": " ++ msg

/-- Message of the wrapped error returned by needsRerun when os.Open of the
log file fails (wrap context "Open log file"; the underlying OS error text is
abstracted away). -/
def openRerunLogErr : String := "Open log file"

/-- Message of the wrapped error returned by getErrorsFromLog when os.Open of
the log file fails (wrap context "opening logfile"). -/
def openLogfileErr : String := "opening logfile"

/-- Message of the wrapped error returned by getErrorsFromLog when the scanner
reports a read error (wrap context "reading logfile"). -/
def readLogfileErr : String := "reading logfile"

/-- Message returned by getMergedError when the process failed but no matching
error line was found in the log. -/
def noErrorFoundMsg : String :=
  "No error found even though pdflatex stopped with an error. Something bad happened"

/-- Translation of needsRerun (src/main.go): returns (bool, error).  When the
log cannot be opened it returns false together with a wrapped error.
Otherwise it scans the delivered lines and returns true on the first line
matching the rerun pattern; when the scan stops (end of file or a read error,
which this function never checks) it returns (false, nil). -/
def needsRerun (log : Option LogRead) : Bool × Option String :=
  match log with
  | none => (false, some openRerunLogErr)
  | some lr =>
    if lr.lines.any lineHasRerunMarker then (true, none) else (false, none)

/-- Translation of getErrorsFromLog (src/main.go): error when the log cannot
be opened; otherwise collect the trimmed matching lines and, after the scan,
propagate a scanner read error (discarding the collected lines). -/
def getErrorsFromLog (log : Option LogRead) : Except String (List String) :=
  match log with
  | none => .error openLogfileErr
  | some lr =>
    let errs := (lr.lines.filter isErrLine).map trimSpace
    if lr.readErr then .error readLogfileErr else .ok errs

/-- Translation of getMergedError (src/main.go): wrap a getErrorsFromLog
failure, report the inconsistent-state message when no error line matched,
and otherwise join the matched lines with "|". -/
def getMergedError (log : Option LogRead) : String :=
  match getErrorsFromLog log with
  | .error e => wrapErr "Get errors from pdflatex log" e
  | .ok errs =>
    if errs.length = 0 then noErrorFoundMsg
    else stringsJoin errs "|"

/-- Outcome of one invocation of the external process: whether cmd.Start
failed, whether cmd.Wait reported a clean exit, and the state of the
jobname.log file afterwards (none = the file cannot be opened). -/
structure PassOutcome where
  startErr : Option String
  waitOk : Bool
  log : Option LogRead

/-- The command as prepared by runLatex: executable, arguments, working
directory and environment (none = inherit the parent environment, i.e. the
TEXINPUTS variable is not set by gotex). -/
structure Cmd where
  name : String
  args : List String
  dir : String
  env : Option (List String)
deriving DecidableEq

/-- Command-construction part of runLatex (src/main.go): fixed flags, the
scratch directory as working directory, and, only when texinputs is nonempty,
an environment of os.Environ() plus TEXINPUTS set to texinputs with a
trailing colon. -/
def mkLatexCmd (command texinputs : String) (osEnviron : List String)
    (dir jobname : String) : Cmd :=
  { name := command
    args := ["-halt-on-error", "-jobname=" ++ jobname]
    dir := dir
    env :=
      if texinputs ≠ "" then
        some (osEnviron ++ ["TEXINPUTS=" ++ texinputs ++ ":"])
      else none }

/-- Execution part of runLatex (src/main.go): a Start error is returned
unchanged; a nonzero exit from Wait is replaced by the merged error built
from the log file. -/
def runLatex (p : PassOutcome) : Except String Unit :=
  match p.startErr with
  | some e => .error e
  | none => if p.waitOk then .ok () else .error (getMergedError p.log)

/-- Loop of renderDocument (src/main.go).  fuel is the number of passes still
allowed (maxRuns - runs); each call corresponds to the loop condition being
checked with rerun = true.  Returns the total number of passes performed, or
the first escalated error: a runLatex failure is wrapped with "compile tex to
pdf", and in automatic mode a needsRerun error is returned unchanged. -/
def renderLoop (optRuns : Int) (passes : Nat → PassOutcome) :
    Nat → Nat → Except String Nat
  | runs, 0 => .ok runs
  | runs, fuel + 1 =>
    match runLatex (passes runs) with
    | .error e => .error (wrapErr "compile tex to pdf" e)
    | .ok _ =>
      if optRuns = 0 then
        match needsRerun (passes runs).log with
        | (_, some e) => .error e
        | (rerun, none) =>
          if rerun then renderLoop optRuns passes (runs + 1) fuel
          else .ok (runs + 1)
      else renderLoop optRuns passes (runs + 1) fuel

/-- Translation of renderDocument (src/main.go): read the document into
memory (docReadOk abstracts ioutil.ReadAll), then run the pass loop with
maxRuns equal to Runs when Runs > 0 and 5 otherwise. -/
def renderDocument (optRuns : Int) (docReadOk : Bool)
    (passes : Nat → PassOutcome) : Except String Nat :=
  if docReadOk = false then .error (wrapErr "Reading file data" "read error")
  else renderLoop optRuns passes 0 (if optRuns > 0 then optRuns.toNat else 5)

/-- Abstract outcomes of the filesystem and process steps during one call of
Render or RenderToFile: whether ioutil.TempDir succeeds, whether reading the
document succeeds, the per-pass process outcomes, the bytes delivered by
ioutil.ReadFile on the generated pdf (none = read failure), and whether
os.Rename to the target succeeds. -/
structure RenderEnv where
  tempDirOk : Bool
  docReadOk : Bool
  passes : Nat → PassOutcome
  pdfBytes : Option (List Nat)
  renameOk : Bool

/-- Effect of os.RemoveAll on the scratch directory: afterwards the directory
no longer exists, whatever its previous state. -/
def removeAllDir (_ : Bool) : Bool := false

/-- Options record of the plain-function variant of the package; only Runs
influences the control flow modelled here. -/
structure Options where
  Command : String
  Runs : Int
  Texinputs : String

/-- Translation of Render (src/main.go): create the scratch directory, render
the document, slurp the generated pdf.  The deferred os.RemoveAll runs on
every return after the directory was created.  The second component of the
result records whether the scratch directory still exists when Render
returns (false on the temp-dir-creation failure path as well, since no
directory was created there). -/
def Render (options : Options) (env : RenderEnv) :
    Except String (List Nat) × Bool :=
  if env.tempDirOk = false then
    (.error (wrapErr "Creating temp dir" "mkdir error"), false)
  else
    match renderDocument options.Runs env.docReadOk env.passes with
    | .error e => (.error (wrapErr "Rendering document" e), removeAllDir true)
    | .ok _ =>
      match env.pdfBytes with
      | none =>
        (.error (wrapErr "read generated pdf into buffer" "read error"),
          removeAllDir true)
      | some bytes => (.ok bytes, removeAllDir true)

/-- Translation of RenderToFile (src/main.go): like Render but the artifact
is moved to the target path with os.Rename instead of being read into
memory; the deferred os.RemoveAll likewise runs on every return after the
scratch directory was created. -/
def RenderToFile (options : Options) (env : RenderEnv) :
    Except String Unit × Bool :=
  if env.tempDirOk = false then
    (.error (wrapErr "Creating temp dir" "mkdir error"), false)
  else
    match renderDocument options.Runs env.docReadOk env.passes with
    | .error e => (.error (wrapErr "Rendering document" e), removeAllDir true)
    | .ok _ =>
      if env.renameOk then (.ok (), removeAllDir true)
      else
        (.error (wrapErr "moving generated pdf to target" "rename error"),
          removeAllDir true)

/-- Configuration record built by the builder-style constructor New. -/
structure texToPDFImpl where
  command : String
  runs : Int
  texinputs : String
  jobname : String
deriving DecidableEq

/-- The Option constructors of the builder API: PdfLatexBin, Runs and
TexInputs. -/
inductive GoOption where
  | pdfLatexBin (cmd : String)
  | runsOpt (n : Int)
  | texInputs (inputs : List String)
deriving DecidableEq

/-- Effect of applying one Option function to the configuration; TexInputs
joins its arguments with ":". -/
def applyOption (t : texToPDFImpl) : GoOption → texToPDFImpl
  | .pdfLatexBin c => { t with command := c }
  | .runsOpt n => { t with runs := n }
  | .texInputs ins => { t with texinputs := stringsJoin ins ":" }

/-- Whether an option is a TexInputs option. -/
def isTexInputsOpt : GoOption → Bool
  | .texInputs _ => true
  | _ => false

/-- Translation of New (src/main.go): texinputs defaults to the result of
os.Getwd() — or to "./" when Getwd fails — and the given options are then
applied in order to the defaulted record. -/
def New (getwdRes : Except Unit String) (options : List GoOption) :
    texToPDFImpl :=
  let currentDir := match getwdRes with | .ok d => d | .error _ => "./"
  options.foldl applyOption
    { command := "pdflatex", runs := 0, texinputs := currentDir,
      jobname := "gotex" }

/-! ## Concrete environments used by witnesses and counterexamples -/

/-- Passes that start and exit cleanly but whose log cannot be opened. -/
def cleanNoLogPasses : Nat → PassOutcome := fun _ => ⟨none, true, none⟩

/-- Passes that exit cleanly and whose log asks for a rerun every time. -/
def cleanRerunPasses : Nat → PassOutcome := fun _ =>
  ⟨none, true,
    some ⟨["Label(s) may have changed. Rerun to get cross-references right."],
      false⟩⟩

/-- Passes that exit cleanly with a quiet log (no rerun marker). -/
def cleanQuietPasses : Nat → PassOutcome := fun _ =>
  ⟨none, true, some ⟨["Output written on gotex.pdf (1 page)."], false⟩⟩

/-! ## Helper lemmas about the pass loop -/

/-- When an explicit pass count is configured (Runs not zero) and every pass
starts and exits cleanly, the loop consumes all its fuel and needsRerun is
never consulted: the pass count equals runs + fuel for any log contents. -/
theorem renderLoop_nonauto (N : Int) (hN : N ≠ 0) (passes : Nat → PassOutcome)
    (h : ∀ i, (passes i).startErr = none ∧ (passes i).waitOk = true) :
    ∀ fuel runs, renderLoop N passes runs fuel = .ok (runs + fuel) := by
  intro fuel
  induction fuel with
  | zero => intro runs; simp [renderLoop]
  | succ fuel ih =>
    intro runs
    have h1 := (h runs).1
    have h2 := (h runs).2
    simp only [renderLoop, runLatex, h1, h2, if_pos, hN, if_neg, if_false]
    rw [ih (runs + 1)]
    congr 1
    omega

/-- In automatic mode, when every pass starts and exits cleanly and every
pass's log answers "rerun", the loop consumes all its fuel. -/
theorem renderLoop_auto_rerun (passes : Nat → PassOutcome)
    (h : ∀ i, (passes i).startErr = none ∧ (passes i).waitOk = true ∧
      needsRerun (passes i).log = (true, none)) :
    ∀ fuel runs, renderLoop 0 passes runs fuel = .ok (runs + fuel) := by
  intro fuel
  induction fuel with
  | zero => intro runs; simp [renderLoop]
  | succ fuel ih =>
    intro runs
    obtain ⟨h1, h2, h3⟩ := h runs
    simp only [renderLoop, runLatex, h1, h2, h3, if_true, if_pos]
    rw [ih (runs + 1)]
    congr 1
    omega

/-! ## Claim theorems -/

/-- C2: with an explicit pass count N > 0 configured and every pass exiting
cleanly, renderDocument performs exactly N passes.  The per-pass logs are
universally quantified (they may even be unopenable), so rerun detection is
demonstrably never consulted and the result is independent of log content. -/
theorem explicit_runs_exact_passes (N : Int) (hN : 0 < N)
    (passes : Nat → PassOutcome)
    (h : ∀ i, (passes i).startErr = none ∧ (passes i).waitOk = true) :
    renderDocument N true passes = .ok N.toNat := by
  have hne : N ≠ 0 := by omega
  have := renderLoop_nonauto N hne passes h N.toNat 0
  simpa [renderDocument, hN] using this

/-- Witness for C2 at N = 3 with logs that cannot even be opened: all three
passes run and the render succeeds, so rerun detection was not consulted. -/
theorem explicit_runs_exact_passes_witness :
    (0 : Int) < 3 ∧
      renderDocument 3 true cleanNoLogPasses = .ok ((3 : Int).toNat) :=
  ⟨by decide,
    explicit_runs_exact_passes 3 (by decide) cleanNoLogPasses
      (fun _ => ⟨rfl, rfl⟩)⟩

/-- C3: in automatic mode, when every pass exits cleanly and every pass's log
opens and contains a line with the rerun marker, the render performs at
least two and at most five passes, no matter how persistently the marker
reappears. -/
theorem auto_marker_pass_bounds (passes : Nat → PassOutcome)
    (h : ∀ i, (passes i).startErr = none ∧ (passes i).waitOk = true ∧
      ∃ lr, (passes i).log = some lr ∧ lr.lines.any lineHasRerunMarker = true) :
    ∃ n, renderDocument 0 true passes = .ok n ∧ 2 ≤ n ∧ n ≤ 5 := by
  have h' : ∀ i, (passes i).startErr = none ∧ (passes i).waitOk = true ∧
      needsRerun (passes i).log = (true, none) := by
    intro i
    obtain ⟨h1, h2, lr, hlog, hmark⟩ := h i
    exact ⟨h1, h2, by simp [needsRerun, hlog, hmark]⟩
  have := renderLoop_auto_rerun passes h' 5 0
  exact ⟨5, by simpa [renderDocument] using this, by omega, by omega⟩

/-- Witness for C3: a log whose single line asks for a rerun after every
pass; the render performs exactly five passes, within the stated bounds. -/
theorem auto_marker_pass_bounds_witness :
    ∃ n, renderDocument 0 true cleanRerunPasses = .ok n ∧ 2 ≤ n ∧ n ≤ 5 :=
  auto_marker_pass_bounds cleanRerunPasses
    (fun _ => ⟨rfl, rfl, _, rfl, by decide⟩)

/-- C4: in automatic mode, when the first pass exits cleanly and its log
opens and contains no line matching the rerun pattern, renderDocument stops
after exactly one pass. -/
theorem auto_no_marker_single_pass (passes : Nat → PassOutcome)
    (h1 : (passes 0).startErr = none) (h2 : (passes 0).waitOk = true)
    (lr : LogRead) (hlog : (passes 0).log = some lr)
    (hm : lr.lines.any lineHasRerunMarker = false) :
    renderDocument 0 true passes = .ok 1 := by
  simp [renderDocument, renderLoop, runLatex, needsRerun, h1, h2, hlog, hm]

/-- Witness for C4: a clean first pass whose log has no rerun marker gives a
one-pass render. -/
theorem auto_no_marker_single_pass_witness :
    renderDocument 0 true cleanQuietPasses = .ok 1 :=
  auto_no_marker_single_pass cleanQuietPasses rfl rfl _ rfl (by decide)

/-- C1 counterexample: with a clean first pass whose log cannot be opened,
needsRerun does answer false, but it also reports an error, and
renderDocument escalates it: the render fails instead of continuing, so the
open failure is not silently swallowed as the claim states. -/
theorem needsRerun_open_failure_escalates_cex :
    needsRerun none = (false, some openRerunLogErr) ∧
    renderDocument 0 true cleanNoLogPasses = .error openRerunLogErr := by
  exact ⟨rfl, rfl⟩

/-- C1 amended: in automatic mode, if the first pass exits cleanly but its
log cannot be opened, needsRerun returns false together with a wrapped "Open
log file" error, and renderDocument escalates that error, so the render
operation fails rather than continuing. -/
theorem needsRerun_open_failure_escalates (passes : Nat → PassOutcome)
    (h1 : (passes 0).startErr = none) (h2 : (passes 0).waitOk = true)
    (hlog : (passes 0).log = none) :
    (needsRerun (passes 0).log).1 = false ∧
    renderDocument 0 true passes = .error openRerunLogErr := by
  constructor
  · rw [hlog]; rfl
  · simp [renderDocument, renderLoop, runLatex, needsRerun, h1, h2, hlog]

/-- Witness for the amended C1 at the concrete environment whose logs cannot
be opened. -/
theorem needsRerun_open_failure_escalates_witness :
    (needsRerun (cleanNoLogPasses 0).log).1 = false ∧
    renderDocument 0 true cleanNoLogPasses = .error openRerunLogErr :=
  needsRerun_open_failure_escalates cleanNoLogPasses rfl rfl rfl

/-- C9: a mid-scan read error that occurs before any rerun marker was seen is
silently swallowed by needsRerun, which returns (false, nil) — while
getErrorsFromLog on the very same log state checks the scanner error and
propagates it. -/
theorem rerun_scan_error_swallowed (lines : List String)
    (h : lines.any lineHasRerunMarker = false) :
    needsRerun (some ⟨lines, true⟩) = (false, none) ∧
    getErrorsFromLog (some ⟨lines, true⟩) = .error readLogfileErr := by
  constructor
  · simp [needsRerun, h]
  · simp [getErrorsFromLog]

/-- Witness for C9 on a one-line log truncated by a read error. -/
theorem rerun_scan_error_swallowed_witness :
    needsRerun (some ⟨["This is pdfTeX"], true⟩) = (false, none) ∧
    getErrorsFromLog (some ⟨["This is pdfTeX"], true⟩) =
      .error readLogfileErr :=
  rerun_scan_error_swallowed ["This is pdfTeX"] (by decide)

/-- C8: when a nonempty auxiliary search path list is configured, the child
process environment is os.Environ() extended with TEXINPUTS set to the
configured list followed by a trailing colon; with an empty list the
environment is left untouched (the variable is not set). -/
theorem texinputs_env_var (command ti : String) (osEnviron : List String)
    (dir jobname : String) (h : ti ≠ "") :
    (mkLatexCmd command ti osEnviron dir jobname).env =
      some (osEnviron ++ ["TEXINPUTS=" ++ ti ++ ":"]) ∧
    (mkLatexCmd command "" osEnviron dir jobname).env = none := by
  constructor
  · simp [mkLatexCmd, h]
  · simp [mkLatexCmd]

/-- Witness for C8 with a concrete search path list. -/
theorem texinputs_env_var_witness :
    (mkLatexCmd "pdflatex" "/my/assets" ["PATH=/usr/bin"] "/tmp/gotex-1"
        "gotex").env =
      some (["PATH=/usr/bin"] ++ ["TEXINPUTS=" ++ "/my/assets" ++ ":"]) ∧
    (mkLatexCmd "pdflatex" "" ["PATH=/usr/bin"] "/tmp/gotex-1" "gotex").env =
      none :=
  texinputs_env_var "pdflatex" "/my/assets" ["PATH=/usr/bin"] "/tmp/gotex-1"
    "gotex" (by decide)

/-- C6: when the process exits nonzero but the log opens, scans cleanly and
contains no line matching the error pattern, the diagnosis is the distinct
inconsistent-state message — which is neither empty nor an opaque exit
status — and runLatex surfaces exactly that message. -/
theorem diagnose_inconsistent_state (lr : LogRead) (hread : lr.readErr = false)
    (hno : ∀ l ∈ lr.lines, isErrLine l = false) :
    getMergedError (some lr) = noErrorFoundMsg ∧
    runLatex ⟨none, false, some lr⟩ = .error noErrorFoundMsg ∧
    noErrorFoundMsg ≠ "" := by
  have hfil : lr.lines.filter isErrLine = [] := by
    rw [List.filter_eq_nil_iff]
    intro a ha
    simp [hno a ha]
  have hmerged : getMergedError (some lr) = noErrorFoundMsg := by
    simp [getMergedError, getErrorsFromLog, hread, hfil]
  exact ⟨hmerged, by simp [runLatex, hmerged], by decide⟩

/-- Witness for C6 on a log whose only line matches no error marker. -/
theorem diagnose_inconsistent_state_witness :
    getMergedError (some ⟨["This is pdfTeX"], false⟩) = noErrorFoundMsg ∧
    runLatex ⟨none, false, some ⟨["This is pdfTeX"], false⟩⟩ =
      .error noErrorFoundMsg ∧
    noErrorFoundMsg ≠ "" :=
  diagnose_inconsistent_state ⟨["This is pdfTeX"], false⟩ rfl (by decide)

/-! ## Lemmas about stringsJoin, for the diagnosis-order claim -/

/-- Joining a nonempty tail places the separator after the head. -/
theorem stringsJoin_cons_of_ne_nil (s : String) (t : List String)
    (sep : String) (h : t ≠ []) :
    stringsJoin (s :: t) sep = s ++ sep ++ stringsJoin t sep := by
  cases t with
  | nil => exact absurd rfl h
  | cons b t' => rfl

/-- A joined list with a nonempty suffix starts with some prefix string
followed by the join of the suffix. -/
theorem stringsJoin_append_of_ne_nil (A L : List String) (sep : String)
    (hL : L ≠ []) :
    ∃ x, stringsJoin (A ++ L) sep = x ++ stringsJoin L sep := by
  induction A with
  | nil => exact ⟨"", (String.empty_append _).symm⟩
  | cons a A ih =>
    obtain ⟨x, hx⟩ := ih
    have hAL : A ++ L ≠ [] := by
      intro hc
      exact hL (List.append_eq_nil.mp hc).2
    refine ⟨a ++ sep ++ x, ?_⟩
    rw [List.cons_append, stringsJoin_cons_of_ne_nil a (A ++ L) sep hAL, hx,
      String.append_assoc (a ++ sep) x (stringsJoin L sep)]

/-- Two distinguished elements of a joined list occur, in order, as
substrings of the join. -/
theorem stringsJoin_two_elems_decomp (A B C : List String)
    (l1 l2 sep : String) :
    ∃ x y z, stringsJoin (A ++ l1 :: (B ++ l2 :: C)) sep =
      x ++ l1 ++ y ++ l2 ++ z := by
  obtain ⟨x0, hx0⟩ :=
    stringsJoin_append_of_ne_nil A (l1 :: (B ++ l2 :: C)) sep (by simp)
  have h1 : stringsJoin (l1 :: (B ++ l2 :: C)) sep =
      l1 ++ sep ++ stringsJoin (B ++ l2 :: C) sep :=
    stringsJoin_cons_of_ne_nil _ _ _ (by simp)
  obtain ⟨x1, hx1⟩ := stringsJoin_append_of_ne_nil B (l2 :: C) sep (by simp)
  have h2 : ∃ z, stringsJoin (l2 :: C) sep = l2 ++ z := by
    cases C with
    | nil => exact ⟨"", by simp [stringsJoin]⟩
    | cons c C' =>
      refine ⟨sep ++ stringsJoin (c :: C') sep, ?_⟩
      rw [stringsJoin_cons_of_ne_nil _ _ _ (by simp), String.append_assoc]
  obtain ⟨z, hz⟩ := h2
  refine ⟨x0, sep ++ x1, z, ?_⟩
  rw [hx0, h1, hx1, hz]
  simp [String.append_assoc]

/-- The two log lines of the C5 scenario. -/
def ucsLine : String := "! Undefined control sequence."

/-- Continuation line of the C5 scenario. -/
def badcmdLine : String := "<*> \\badcmd"

/-- C5: any log whose lines include "! Undefined control sequence." and, some
lines later, "<*> \\badcmd" makes getMergedError produce a message in which
both lines occur as substrings in that order; on the log holding exactly
those two lines the message is the two lines joined by the fixed separator
"|". -/
theorem diagnose_merged_error_order (p q r : List String) :
    (∃ x y z, getMergedError (some ⟨p ++ ucsLine :: (q ++ badcmdLine :: r),
        false⟩) = x ++ ucsLine ++ y ++ badcmdLine ++ z) ∧
    getMergedError (some ⟨[ucsLine, badcmdLine], false⟩) =
      ucsLine ++ "|" ++ badcmdLine := by
  constructor
  · have herrs : getErrorsFromLog (some ⟨p ++ ucsLine :: (q ++ badcmdLine :: r),
        false⟩) = .ok (((p.filter isErrLine).map trimSpace) ++ ucsLine ::
          (((q.filter isErrLine).map trimSpace) ++ badcmdLine ::
            ((r.filter isErrLine).map trimSpace))) := by
      have hu : isErrLine ucsLine = true := by decide
      have hb : isErrLine badcmdLine = true := by decide
      have htu : trimSpace ucsLine = ucsLine := by decide
      have htb : trimSpace badcmdLine = badcmdLine := by decide
      simp [getErrorsFromLog, List.filter_append, List.filter_cons, hu, hb,
        List.map_append, htu, htb]
    have hlen : (((p.filter isErrLine).map trimSpace) ++ ucsLine ::
        (((q.filter isErrLine).map trimSpace) ++ badcmdLine ::
          ((r.filter isErrLine).map trimSpace))).length ≠ 0 := by
      simp
    obtain ⟨x, y, z, hxyz⟩ := stringsJoin_two_elems_decomp
      ((p.filter isErrLine).map trimSpace) ((q.filter isErrLine).map trimSpace)
      ((r.filter isErrLine).map trimSpace) ucsLine badcmdLine "|"
    refine ⟨x, y, z, ?_⟩
    rw [getMergedError, herrs]
    simp only [hlen, if_false, if_neg hlen]
    exact hxyz
  · decide

/-- C7: for every render operation, the scratch directory no longer exists
when Render or RenderToFile returns: every exit path after the directory was
created runs the deferred removal, and when directory creation itself failed
nothing was created.  In particular a successful render leaves no scratch
directory behind. -/
theorem scratch_dir_released (options : Options) (env : RenderEnv) :
    (Render options env).2 = false ∧ (RenderToFile options env).2 = false := by
  constructor
  · unfold Render
    by_cases ht : env.tempDirOk = false
    · simp [ht]
    · simp only [ht, if_false, if_neg ht]
      cases renderDocument options.Runs env.docReadOk env.passes with
      | error e => simp [removeAllDir]
      | ok n => cases env.pdfBytes <;> simp [removeAllDir]
  · unfold RenderToFile
    by_cases ht : env.tempDirOk = false
    · simp [ht]
    · simp only [ht, if_false, if_neg ht]
      cases renderDocument options.Runs env.docReadOk env.passes with
      | error e => simp [removeAllDir]
      | ok n => cases env.renameOk <;> simp [removeAllDir]

/-! ## Lemmas for the builder-style constructor -/

/-- Applying a list of options none of which is a TexInputs option leaves the
texinputs field unchanged. -/
theorem foldl_applyOption_texinputs (opts : List GoOption)
    (h : ∀ o ∈ opts, isTexInputsOpt o = false) (t : texToPDFImpl) :
    (opts.foldl applyOption t).texinputs = t.texinputs := by
  induction opts generalizing t with
  | nil => rfl
  | cons o tl ih =>
    have ho : isTexInputsOpt o = false := h o (List.mem_cons_self o tl)
    have htl : ∀ o' ∈ tl, isTexInputsOpt o' = false :=
      fun o' h' => h o' (List.mem_cons_of_mem o h')
    rw [List.foldl_cons, ih htl]
    cases o with
    | pdfLatexBin c => rfl
    | runsOpt n => rfl
    | texInputs ins => simp [isTexInputsOpt] at ho

/-- C10: when New is called without a TexInputs option, texinputs defaults to
the working directory reported by os.Getwd (or "./" when that fails), which
is nonempty; consequently every pass of such an instance runs with a
TEXINPUTS variable appended to the environment even though the caller never
configured search paths. -/
theorem new_default_texinputs_nonempty (getwdRes : Except Unit String)
    (hwd : ∀ d, getwdRes = .ok d → d ≠ "")
    (opts : List GoOption) (h : ∀ o ∈ opts, isTexInputsOpt o = false)
    (osEnviron : List String) (dir : String) :
    (New getwdRes opts).texinputs ≠ "" ∧
    (mkLatexCmd (New getwdRes opts).command (New getwdRes opts).texinputs
        osEnviron dir (New getwdRes opts).jobname).env =
      some (osEnviron ++
        ["TEXINPUTS=" ++ (New getwdRes opts).texinputs ++ ":"]) := by
  have hne : (New getwdRes opts).texinputs ≠ "" := by
    unfold New
    rw [foldl_applyOption_texinputs opts h]
    cases getwdRes with
    | ok d => exact hwd d rfl
    | error e => exact (by decide : "./" ≠ "")
  exact ⟨hne, by simp [mkLatexCmd, hne]⟩

/-- Witness for C10: New with a failed Getwd and only a Runs option still
gets a nonempty texinputs, and the child environment carries TEXINPUTS. -/
theorem new_default_texinputs_nonempty_witness :
    (New (.error ()) [.runsOpt 2]).texinputs ≠ "" ∧
    (mkLatexCmd (New (.error ()) [.runsOpt 2]).command
        (New (.error ()) [.runsOpt 2]).texinputs ["PATH=/usr/bin"] "/tmp/g"
        (New (.error ()) [.runsOpt 2]).jobname).env =
      some (["PATH=/usr/bin"] ++
        ["TEXINPUTS=" ++ (New (.error ()) [.runsOpt 2]).texinputs ++ ":"]) :=
  new_default_texinputs_nonempty (.error ()) (by intro d hd; simp at hd)
    [.runsOpt 2] (by decide) ["PATH=/usr/bin"] "/tmp/g"

end Gotex
